import Mathlib

/-!
Verification of the `analog_literals` crate (src/lib.rs).

The crate's `analog_literal!` macro recognises ASCII-art diagrams — 1D lines,
2D rectangles and 3D cuboids drawn with `+`, `--`, `|`, `/` and `I` symbols —
and produces a bare magnitude, a `Rectangle {w, h}` or a `Cuboid {w, h, l}`.
The recogniser is a token-driven state machine written as the recursive
macro `__analog_literal`, whose internal states are the `@`-tagged rule
groups `@1D`, `@2D_TOP`, `@2D_MID`, `@2D_BOTTOM`, `@3D_TOP_l_h`,
`@3D_TOP_l_BOTTOM_l`, `@3D_MID_w`, `@3D_BOTTOM_h`, `@3D_BOTTOM`.

Embedding notes:
* A diagram is a `List Token` over the alphabet {Plus, Dash, Pipe, Slash,
  LineMarker}; a width unit `--` is two consecutive `dash` tokens, exactly as
  the macro's `--` pattern consumes two `-` tokens.
* Each macro rule becomes one arm of `__analog_literal` below, in source
  order, with the same token lookahead and the same counter updates
  (including the source's `w + 1` vs `1 + h` orientation of the increments).
* The macro's failure channel is compile-time abort: either no rule matches
  (modelled as `RecogError.unexpectedToken`), or a `@const_assert` on an
  equality of two counters fails via the intentional `0 - 1` usize underflow
  (modelled as `RecogError.dimensionMismatch edge expected actual`, recording
  which equality check aborted — each `@const_assert` call site in the
  terminal rules compares two named counters of one edge — and its two
  operands).  The host's recursion-limit abort for oversized diagrams is
  modelled by the fuel-indexed variant `__analog_literal_fuel` as
  `RecogError.recognitionDepthExceeded`.
* Counters are `Nat`: they are built by increments only, and the crate is
  `const`-evaluated, where usize overflow aborts compilation rather than
  wrapping, so `Nat` models every value the code actually constructs.
-/

namespace AnalogLiterals

/-- Drawing symbols of a diagram, the token alphabet of the recogniser:
`+`, a single `-` (a width unit `--` is two consecutive `dash` tokens),
`|`, `/`, and the alternative `I` line terminator. -/
inductive Token where
  | plus
  | dash
  | pipe
  | slash
  | lineMarker
deriving DecidableEq, Repr

/-- `Rectangle` from src/lib.rs: width and height of a 2D literal. -/
structure Rectangle where
  w : Nat
  h : Nat
deriving DecidableEq, Repr

/-- `Rectangle::area` from src/lib.rs. -/
def Rectangle.area (r : Rectangle) : Nat := r.w * r.h

/-- `Cuboid` from src/lib.rs: width, height and length of a 3D literal. -/
structure Cuboid where
  w : Nat
  h : Nat
  l : Nat
deriving DecidableEq, Repr

/-- `Cuboid::volume` from src/lib.rs. -/
def Cuboid.volume (c : Cuboid) : Nat := c.w * c.h * c.l

/-- `Cuboid::top` from src/lib.rs. -/
def Cuboid.top (c : Cuboid) : Rectangle := { w := c.w, h := c.l }

/-- `Cuboid::side` from src/lib.rs. -/
def Cuboid.side (c : Cuboid) : Rectangle := { w := c.l, h := c.h }

/-- `Cuboid::front` from src/lib.rs. -/
def Cuboid.front (c : Cuboid) : Rectangle := { w := c.w, h := c.h }

/-- Which drawn edge a failed terminal equality check concerns. -/
inductive Edge where
  | width
  | height
  | length
deriving DecidableEq, Repr

/-- The recogniser's failure modes, per spec section 7.  In the source all
three are compile-time aborts: an unmatched macro rule, a failed
`@const_assert` (the `0 - 1` underflow signal), or the host recursion
limit. -/
inductive RecogError where
  | unexpectedToken
  | dimensionMismatch (edge : Edge) (expected actual : Nat)
  | recognitionDepthExceeded
deriving DecidableEq, Repr

/-- Result of a recognition: a bare magnitude (1D literals and the
degenerate rectangle that collapses to one), a `Rectangle`, or a
`Cuboid`.  The source returns a plain `usize` in the first case (the
`Line` struct exists only in the docs). -/
inductive RecogResult where
  | num (n : Nat)
  | rect (r : Rectangle)
  | cuboid (c : Cuboid)
deriving DecidableEq, Repr

/-- The `@1D` rules of `__analog_literal` (src/lib.rs lines 529-535): each
`--` adds one to the count, a final lone `I` closes the line. -/
def run1D : List Token → Except RecogError Nat
  | .dash :: .dash :: t :: ts => (run1D (t :: ts)).map (1 + ·)
  | [.lineMarker] => .ok 0
  | _ => .error .unexpectedToken

/-- The states of the `__analog_literal` state machine, one per `@`-tagged
rule group of the macro, carrying the counters those rules thread through
(src/lib.rs lines 541-1135). -/
inductive St where
  | top2 (w h : Nat)
  | mid2 (w h : Nat)
  | bot2 (w h bottom_w : Nat)
  | top3lh (w h l mid_w bottom_w bottom_h bottom_l : Nat)
  | top3lbl (w h l mid_w bottom_w bottom_h bottom_l : Nat)
  | mid3w (w h l mid_w bottom_w bottom_h bottom_l : Nat)
  | bot3h (w h l mid_w bottom_w bottom_h bottom_l : Nat)
  | bot3 (w h l mid_w bottom_w bottom_h bottom_l : Nat)
deriving DecidableEq, Repr

/-- The recursive core of the `__analog_literal` macro (src/lib.rs lines
488-1149), one arm per macro rule in source order.  Every rule's `$tail:tt+`
is a nonempty remainder, hence the `t :: ts` in each recursive arm; the two
terminal rules (`@2D_BOTTOM ; +` and `@3D_BOTTOM ; +`) require the closing
`+` to be the very last token.  The terminal `@const_assert` checks run in
source order and the first failing one aborts. -/
def __analog_literal : St → List Token → Except RecogError RecogResult
  | .top2 w h, .dash :: .dash :: t :: ts => __analog_literal (.top2 (w + 1) h) (t :: ts)
  | .top2 w _h, [.plus] => .ok (.num w)
  | .top2 w h, .plus :: t :: ts => __analog_literal (.mid2 w h) (t :: ts)
  | .mid2 w h, .pipe :: .pipe :: t :: ts => __analog_literal (.mid2 w (1 + h)) (t :: ts)
  | .mid2 w h, .plus :: t :: ts => __analog_literal (.bot2 w h 0) (t :: ts)
  | .mid2 w _h, .slash :: .slash :: .pipe :: t :: ts =>
      __analog_literal (.top3lh w 1 1 0 0 0 0) (t :: ts)
  | .bot2 w h bw, .dash :: .dash :: t :: ts => __analog_literal (.bot2 w h (bw + 1)) (t :: ts)
  | .bot2 w h bw, [.plus] =>
      if w = bw then .ok (.rect { w := w, h := h })
      else .error (.dimensionMismatch .width w bw)
  | .top3lh w h l mw bw bh bl, .slash :: .slash :: .pipe :: t :: ts =>
      __analog_literal (.top3lh w (1 + h) (1 + l) mw bw bh bl) (t :: ts)
  | .top3lh w h l mw bw bh bl, .slash :: .slash :: .plus :: t :: ts =>
      __analog_literal (.top3lbl w h (1 + l) mw bw bh bl) (t :: ts)
  | .top3lbl w h l mw bw bh bl, .slash :: .slash :: .slash :: t :: ts =>
      __analog_literal (.top3lbl w h (1 + l) mw bw bh (1 + bl)) (t :: ts)
  | .top3lbl w h l mw bw bh bl, .plus :: t :: ts =>
      __analog_literal (.mid3w w h l mw bw bh bl) (t :: ts)
  | .top3lh w h l mw bw bh bl, .plus :: t :: ts =>
      __analog_literal (.mid3w w h l mw bw bh bl) (t :: ts)
  | .mid3w w h l mw bw bh bl, .dash :: .dash :: t :: ts =>
      __analog_literal (.mid3w w h l (1 + mw) bw bh bl) (t :: ts)
  | .mid3w w h l mw bw bh bl, .plus :: .plus :: t :: ts =>
      __analog_literal (.bot3h w h l mw bw bh bl) (t :: ts)
  | .mid3w w h l mw bw bh bl, .plus :: .pipe :: t :: ts =>
      __analog_literal (.bot3h w (1 + h) l mw bw bh bl) (t :: ts)
  | .mid3w w h l mw bw bh bl, .plus :: .slash :: t :: ts =>
      __analog_literal (.bot3h w h l mw bw bh (1 + bl)) (t :: ts)
  | .bot3h w h l mw bw bh bl, .pipe :: .pipe :: .plus :: t :: ts =>
      __analog_literal (.bot3h w h l mw bw (1 + bh) bl) (t :: ts)
  | .bot3h w h l mw bw bh bl, .pipe :: .pipe :: .slash :: t :: ts =>
      __analog_literal (.bot3h w h l mw bw (1 + bh) (1 + bl)) (t :: ts)
  | .bot3h w h l mw bw bh bl, .pipe :: .pipe :: .pipe :: t :: ts =>
      __analog_literal (.bot3h w (1 + h) l mw bw (1 + bh) bl) (t :: ts)
  | .bot3h w h l mw bw bh bl, .plus :: t :: ts =>
      __analog_literal (.bot3 w h l mw bw bh bl) (t :: ts)
  | .bot3 w h l mw bw bh bl, .dash :: .dash :: t :: ts =>
      __analog_literal (.bot3 w h l mw (1 + bw) bh bl) (t :: ts)
  | .bot3 w h l mw bw bh bl, [.plus] =>
      if w = mw then
        if w = bw then
          if h = bh then
            if l = bl then .ok (.cuboid { w := w, h := h, l := l })
            else .error (.dimensionMismatch .length l bl)
          else .error (.dimensionMismatch .height h bh)
        else .error (.dimensionMismatch .width w bw)
      else .error (.dimensionMismatch .width w mw)
  | _, _ => .error .unexpectedToken

/-- The public `analog_literal!` entry rules (src/lib.rs lines 465-484): a
leading `I` dispatches to the 1D rules (the `II` rule is the alternative
spelling of the zero-length line, which at token level is covered by the
first rule with `run1D [lineMarker]`); a leading `+` starts the shared
2D/3D top edge with both counters zero.  The macro's `0 + …` wrapper on the
1D result is a value-level no-op. -/
def analog_literal : List Token → Except RecogError RecogResult
  | .lineMarker :: t :: ts => (run1D (t :: ts)).map .num
  | .plus :: t :: ts => __analog_literal (.top2 0 0) (t :: ts)
  | _ => .error .unexpectedToken

/-- Fuel-indexed variant of `run1D`: each macro expansion step spends one
unit of the host's recursion budget. -/
def run1D_fuel : Nat → List Token → Except RecogError Nat
  | 0, _ => .error .recognitionDepthExceeded
  | fuel + 1, ts =>
    match ts with
    | .dash :: .dash :: t :: ts => (run1D_fuel fuel (t :: ts)).map (1 + ·)
    | [.lineMarker] => .ok 0
    | _ => .error .unexpectedToken

/-- Fuel-indexed variant of `__analog_literal`, arm for arm the same rules,
spending one unit of the host's macro-recursion budget per transition and
aborting with `recognitionDepthExceeded` when the budget is exhausted. -/
def __analog_literal_fuel : Nat → St → List Token → Except RecogError RecogResult
  | 0, _, _ => .error .recognitionDepthExceeded
  | fuel + 1, st, ts =>
    match st, ts with
    | .top2 w h, .dash :: .dash :: t :: ts => __analog_literal_fuel fuel (.top2 (w + 1) h) (t :: ts)
    | .top2 w _h, [.plus] => .ok (.num w)
    | .top2 w h, .plus :: t :: ts => __analog_literal_fuel fuel (.mid2 w h) (t :: ts)
    | .mid2 w h, .pipe :: .pipe :: t :: ts => __analog_literal_fuel fuel (.mid2 w (1 + h)) (t :: ts)
    | .mid2 w h, .plus :: t :: ts => __analog_literal_fuel fuel (.bot2 w h 0) (t :: ts)
    | .mid2 w _h, .slash :: .slash :: .pipe :: t :: ts =>
        __analog_literal_fuel fuel (.top3lh w 1 1 0 0 0 0) (t :: ts)
    | .bot2 w h bw, .dash :: .dash :: t :: ts =>
        __analog_literal_fuel fuel (.bot2 w h (bw + 1)) (t :: ts)
    | .bot2 w h bw, [.plus] =>
        if w = bw then .ok (.rect { w := w, h := h })
        else .error (.dimensionMismatch .width w bw)
    | .top3lh w h l mw bw bh bl, .slash :: .slash :: .pipe :: t :: ts =>
        __analog_literal_fuel fuel (.top3lh w (1 + h) (1 + l) mw bw bh bl) (t :: ts)
    | .top3lh w h l mw bw bh bl, .slash :: .slash :: .plus :: t :: ts =>
        __analog_literal_fuel fuel (.top3lbl w h (1 + l) mw bw bh bl) (t :: ts)
    | .top3lbl w h l mw bw bh bl, .slash :: .slash :: .slash :: t :: ts =>
        __analog_literal_fuel fuel (.top3lbl w h (1 + l) mw bw bh (1 + bl)) (t :: ts)
    | .top3lbl w h l mw bw bh bl, .plus :: t :: ts =>
        __analog_literal_fuel fuel (.mid3w w h l mw bw bh bl) (t :: ts)
    | .top3lh w h l mw bw bh bl, .plus :: t :: ts =>
        __analog_literal_fuel fuel (.mid3w w h l mw bw bh bl) (t :: ts)
    | .mid3w w h l mw bw bh bl, .dash :: .dash :: t :: ts =>
        __analog_literal_fuel fuel (.mid3w w h l (1 + mw) bw bh bl) (t :: ts)
    | .mid3w w h l mw bw bh bl, .plus :: .plus :: t :: ts =>
        __analog_literal_fuel fuel (.bot3h w h l mw bw bh bl) (t :: ts)
    | .mid3w w h l mw bw bh bl, .plus :: .pipe :: t :: ts =>
        __analog_literal_fuel fuel (.bot3h w (1 + h) l mw bw bh bl) (t :: ts)
    | .mid3w w h l mw bw bh bl, .plus :: .slash :: t :: ts =>
        __analog_literal_fuel fuel (.bot3h w h l mw bw bh (1 + bl)) (t :: ts)
    | .bot3h w h l mw bw bh bl, .pipe :: .pipe :: .plus :: t :: ts =>
        __analog_literal_fuel fuel (.bot3h w h l mw bw (1 + bh) bl) (t :: ts)
    | .bot3h w h l mw bw bh bl, .pipe :: .pipe :: .slash :: t :: ts =>
        __analog_literal_fuel fuel (.bot3h w h l mw bw (1 + bh) (1 + bl)) (t :: ts)
    | .bot3h w h l mw bw bh bl, .pipe :: .pipe :: .pipe :: t :: ts =>
        __analog_literal_fuel fuel (.bot3h w (1 + h) l mw bw (1 + bh) bl) (t :: ts)
    | .bot3h w h l mw bw bh bl, .plus :: t :: ts =>
        __analog_literal_fuel fuel (.bot3 w h l mw bw bh bl) (t :: ts)
    | .bot3 w h l mw bw bh bl, .dash :: .dash :: t :: ts =>
        __analog_literal_fuel fuel (.bot3 w h l mw (1 + bw) bh bl) (t :: ts)
    | .bot3 w h l mw bw bh bl, [.plus] =>
        if w = mw then
          if w = bw then
            if h = bh then
              if l = bl then .ok (.cuboid { w := w, h := h, l := l })
              else .error (.dimensionMismatch .length l bl)
            else .error (.dimensionMismatch .height h bh)
          else .error (.dimensionMismatch .width w bw)
        else .error (.dimensionMismatch .width w mw)
    | _, _ => .error .unexpectedToken

/-- Fuel-indexed variant of the `analog_literal` entry dispatch. -/
def analog_literal_fuel (fuel : Nat) : List Token → Except RecogError RecogResult
  | .lineMarker :: t :: ts => (run1D_fuel fuel (t :: ts)).map .num
  | .plus :: t :: ts => __analog_literal_fuel fuel (.top2 0 0) (t :: ts)
  | _ => .error .unexpectedToken

/-- `n` copies of a token group in sequence. -/
def rep (seg : List Token) : Nat → List Token
  | 0 => []
  | n + 1 => seg ++ rep seg n

/-- `n` width units, i.e. `n` drawn `--` groups. -/
def dashPairs (n : Nat) : List Token := rep [.dash, .dash] n

/-- `n` rectangle rows, i.e. `n` drawn `| … |` pairs. -/
def pipePairs (n : Nat) : List Token := rep [.pipe, .pipe] n

/-- The token stream of a drawn 1D line: `I`, `n` width units, `I`. -/
def lineTokens (n : Nat) : List Token :=
  .lineMarker :: (dashPairs n ++ [.lineMarker])

/-- The token stream of the degenerate 2D opening that closes immediately
after the top edge: `+`, `w` width units, `+`, end of input. -/
def degTokens (w : Nat) : List Token :=
  .plus :: (dashPairs w ++ [.plus])

/-- The token stream of a drawn rectangle with top width `w`, `h` rows and
bottom width `bw`: `+ --…-- + (| |)…(| |) + --…-- +`. -/
def rectTokens (w h bw : Nat) : List Token :=
  .plus :: (dashPairs w ++ (.plus :: (pipePairs h ++ (.plus :: (dashPairs bw ++ [.plus])))))

/-- A top-back diagonal row `/ … / |` of a cuboid. -/
def sspSeg : List Token := [.slash, .slash, .pipe]

/-- A front-bottom depth row `/ … / /` of a cuboid. -/
def sssSeg : List Token := [.slash, .slash, .slash]

/-- A front-face row `| … | |` of a cuboid that is also a side-face row. -/
def iiiSeg : List Token := [.pipe, .pipe, .pipe]

/-- A front-face row `| … | /` of a cuboid with a back depth unit. -/
def iisSeg : List Token := [.pipe, .pipe, .slash]

/-- The token stream of a drawn cuboid with matching front/back
measurements for dimensions `w`, `h`, `l`.  The wireframe is drawn the way
the crate's own doc examples are: when `h < l` the perspective rows first
trace `h` top-back diagonals, close the top face with `/ / +`, add the
remaining depth with `/ / /` rows and finish the side face with `| | /`
rows (the `CUBE_5_BY_2_BY_4` shape); otherwise the `l` diagonals are
followed directly by the middle edge, `h - l` rows shared between front
and side face, `l - 1` rows with a back depth unit and a final `| | +` row
(the `CUBE_4_BY_5_BY_1` shape). -/
def cuboidTokens (w h l : Nat) : List Token :=
  if h < l then
    .plus :: (dashPairs w ++ (.plus :: (rep sspSeg h ++ (.slash :: .slash :: .plus ::
      (rep sssSeg (l - h - 1) ++ (.plus :: (dashPairs w ++ (.plus :: .slash ::
      (rep iisSeg h ++ (.plus :: (dashPairs w ++ [.plus])))))))))))
  else
    .plus :: (dashPairs w ++ (.plus :: (rep sspSeg l ++ (.plus :: (dashPairs w ++ (.plus :: .slash ::
      (rep iiiSeg (h - l) ++ (rep iisSeg (l - 1) ++ (.pipe :: .pipe :: .plus ::
      (.plus :: (dashPairs w ++ [.plus])))))))))))

/-- The token stream of a cuboid of width zero: `+ + / / | + + + | | / + +`,
i.e. empty top edge, one top-back diagonal, empty middle edge, no extra
rows, one `| | /` row, empty bottom edge. -/
def wZeroTokens : List Token :=
  [.plus, .plus, .slash, .slash, .pipe, .plus, .plus, .plus, .pipe, .pipe, .slash, .plus, .plus]

/-- The branch of `cuboidTokens` for `h < l`, reparametrised additively:
`h = h2 + 1` diagonals and `k = l - h - 1` extra depth rows. -/
def cuboidTokensA (w h k : Nat) : List Token :=
  .plus :: (dashPairs w ++ (.plus :: (rep sspSeg h ++ (.slash :: .slash :: .plus ::
    (rep sssSeg k ++ (.plus :: (dashPairs w ++ (.plus :: .slash ::
    (rep iisSeg h ++ (.plus :: (dashPairs w ++ [.plus])))))))))))

/-- The branch of `cuboidTokens` for `l ≤ h`, reparametrised additively:
`l = l2 + 1` diagonals, `m = h - l` shared rows, `l2` back-depth rows. -/
def cuboidTokensB (w l2 m : Nat) : List Token :=
  .plus :: (dashPairs w ++ (.plus :: (rep sspSeg (l2 + 1) ++ (.plus :: (dashPairs w ++
    (.plus :: .slash :: (rep iiiSeg m ++ (rep iisSeg l2 ++ (.pipe :: .pipe :: .plus ::
    (.plus :: (dashPairs w ++ [.plus])))))))))))

/-- The invariant that makes a cuboid of height or length zero
unconstructible: every 3D state carries `h ≥ 1` and `l ≥ 1` (the only
entry into the 3D rules sets both to 1, and no rule ever decreases a
counter); 2D states carry no constraint. -/
def Inv : St → Prop := fun st =>
  match st with
  | .top2 _ _ => True
  | .mid2 _ _ => True
  | .bot2 _ _ _ => True
  | .top3lh _ h l _ _ _ _ => 1 ≤ h ∧ 1 ≤ l
  | .top3lbl _ h l _ _ _ _ => 1 ≤ h ∧ 1 ≤ l
  | .mid3w _ h l _ _ _ _ => 1 ≤ h ∧ 1 ≤ l
  | .bot3h _ h l _ _ _ _ => 1 ≤ h ∧ 1 ≤ l
  | .bot3 _ h l _ _ _ _ => 1 ≤ h ∧ 1 ≤ l

section Lemmas

theorem append_rest_ne_nil (xs rest : List Token) (h : rest ≠ []) : xs ++ rest ≠ [] := by
  intro hc
  rcases List.append_eq_nil.mp hc with ⟨h1, h2⟩
  exact h h2

/-- Unfolding one copy out of a repeated top-back diagonal row. -/
theorem ssp_succ (n : Nat) (rest : List Token) :
    rep sspSeg (n + 1) ++ rest = .slash :: .slash :: .pipe :: (rep sspSeg n ++ rest) := by
  simp [sspSeg, rep]

/-- Unfolding one copy out of a repeated front-bottom depth row. -/
theorem sss_succ (n : Nat) (rest : List Token) :
    rep sssSeg (n + 1) ++ rest = .slash :: .slash :: .slash :: (rep sssSeg n ++ rest) := by
  simp [sssSeg, rep]

theorem analog_plus_step {rest : List Token} (hne : rest ≠ []) :
    analog_literal (.plus :: rest) = __analog_literal (.top2 0 0) rest := by
  obtain ⟨t, ts, rfl⟩ := List.exists_cons_of_ne_nil hne
  rfl

theorem analog_line_step {rest : List Token} (hne : rest ≠ []) :
    analog_literal (.lineMarker :: rest) = (run1D rest).map .num := by
  obtain ⟨t, ts, rfl⟩ := List.exists_cons_of_ne_nil hne
  rfl

theorem top2_plus_step {w h : Nat} {rest : List Token} (hne : rest ≠ []) :
    __analog_literal (.top2 w h) (.plus :: rest) = __analog_literal (.mid2 w h) rest := by
  obtain ⟨t, ts, rfl⟩ := List.exists_cons_of_ne_nil hne
  rfl

theorem top2_done (w h : Nat) : __analog_literal (.top2 w h) [.plus] = .ok (.num w) := rfl

theorem mid2_plus_step {w h : Nat} {rest : List Token} (hne : rest ≠ []) :
    __analog_literal (.mid2 w h) (.plus :: rest) = __analog_literal (.bot2 w h 0) rest := by
  obtain ⟨t, ts, rfl⟩ := List.exists_cons_of_ne_nil hne
  rfl

theorem mid2_entry3d {w h : Nat} {rest : List Token} (hne : rest ≠ []) :
    __analog_literal (.mid2 w h) (.slash :: .slash :: .pipe :: rest)
      = __analog_literal (.top3lh w 1 1 0 0 0 0) rest := by
  obtain ⟨t, ts, rfl⟩ := List.exists_cons_of_ne_nil hne
  rfl

theorem bot2_done (w h bw : Nat) :
    __analog_literal (.bot2 w h bw) [.plus] =
      if w = bw then .ok (.rect { w := w, h := h })
      else .error (.dimensionMismatch .width w bw) := rfl

theorem top3lh_ssplus_step {w h l mw bw bh bl : Nat} {rest : List Token} (hne : rest ≠ []) :
    __analog_literal (.top3lh w h l mw bw bh bl) (.slash :: .slash :: .plus :: rest)
      = __analog_literal (.top3lbl w h (1 + l) mw bw bh bl) rest := by
  obtain ⟨t, ts, rfl⟩ := List.exists_cons_of_ne_nil hne
  rfl

theorem top3lh_plus_step {w h l mw bw bh bl : Nat} {rest : List Token} (hne : rest ≠ []) :
    __analog_literal (.top3lh w h l mw bw bh bl) (.plus :: rest)
      = __analog_literal (.mid3w w h l mw bw bh bl) rest := by
  obtain ⟨t, ts, rfl⟩ := List.exists_cons_of_ne_nil hne
  rfl

theorem top3lbl_plus_step {w h l mw bw bh bl : Nat} {rest : List Token} (hne : rest ≠ []) :
    __analog_literal (.top3lbl w h l mw bw bh bl) (.plus :: rest)
      = __analog_literal (.mid3w w h l mw bw bh bl) rest := by
  obtain ⟨t, ts, rfl⟩ := List.exists_cons_of_ne_nil hne
  rfl

theorem mid3w_pp_step {w h l mw bw bh bl : Nat} {rest : List Token} (hne : rest ≠ []) :
    __analog_literal (.mid3w w h l mw bw bh bl) (.plus :: .plus :: rest)
      = __analog_literal (.bot3h w h l mw bw bh bl) rest := by
  obtain ⟨t, ts, rfl⟩ := List.exists_cons_of_ne_nil hne
  rfl

theorem mid3w_ps_step {w h l mw bw bh bl : Nat} {rest : List Token} (hne : rest ≠ []) :
    __analog_literal (.mid3w w h l mw bw bh bl) (.plus :: .slash :: rest)
      = __analog_literal (.bot3h w h l mw bw bh (1 + bl)) rest := by
  obtain ⟨t, ts, rfl⟩ := List.exists_cons_of_ne_nil hne
  rfl

theorem bot3h_iip_step {w h l mw bw bh bl : Nat} {rest : List Token} (hne : rest ≠ []) :
    __analog_literal (.bot3h w h l mw bw bh bl) (.pipe :: .pipe :: .plus :: rest)
      = __analog_literal (.bot3h w h l mw bw (1 + bh) bl) rest := by
  obtain ⟨t, ts, rfl⟩ := List.exists_cons_of_ne_nil hne
  rfl

theorem bot3h_plus_step {w h l mw bw bh bl : Nat} {rest : List Token} (hne : rest ≠ []) :
    __analog_literal (.bot3h w h l mw bw bh bl) (.plus :: rest)
      = __analog_literal (.bot3 w h l mw bw bh bl) rest := by
  obtain ⟨t, ts, rfl⟩ := List.exists_cons_of_ne_nil hne
  rfl

theorem bot3_done (w h l mw bw bh bl : Nat) :
    __analog_literal (.bot3 w h l mw bw bh bl) [.plus] =
      if w = mw then
        if w = bw then
          if h = bh then
            if l = bl then .ok (.cuboid { w := w, h := h, l := l })
            else .error (.dimensionMismatch .length l bl)
          else .error (.dimensionMismatch .height h bh)
        else .error (.dimensionMismatch .width w bw)
      else .error (.dimensionMismatch .width w mw) := rfl

theorem run1D_rep (n : Nat) : ∀ {rest : List Token}, rest ≠ [] →
    run1D (dashPairs n ++ rest) = (run1D rest).map (n + ·) := by
  induction n with
  | zero =>
    intro rest _
    have h0 : dashPairs 0 ++ rest = rest := by simp [dashPairs, rep]
    rw [h0]
    cases run1D rest <;> simp [Except.map]
  | succ n ih =>
    intro rest hne
    have hcons : dashPairs (n + 1) ++ rest = .dash :: .dash :: (dashPairs n ++ rest) := by
      simp [dashPairs, rep]
    obtain ⟨t, ts, hts⟩ := List.exists_cons_of_ne_nil (append_rest_ne_nil (dashPairs n) rest hne)
    rw [hcons, hts]
    have hstep : run1D (.dash :: .dash :: t :: ts) = (run1D (t :: ts)).map (1 + ·) := rfl
    rw [hstep, ← hts, ih hne]
    cases run1D rest
    · simp [Except.map]
    · simp only [Except.map]
      have harith : ∀ a : Nat, 1 + (n + a) = n + 1 + a := by omega
      simp [harith]

theorem top2_dash_rep (n : Nat) : ∀ (w h : Nat) {rest : List Token}, rest ≠ [] →
    __analog_literal (.top2 w h) (dashPairs n ++ rest)
      = __analog_literal (.top2 (w + n) h) rest := by
  induction n with
  | zero => intro w h rest _; simp [dashPairs, rep]
  | succ n ih =>
    intro w h rest hne
    have hcons : dashPairs (n + 1) ++ rest = .dash :: .dash :: (dashPairs n ++ rest) := by
      simp [dashPairs, rep]
    obtain ⟨t, ts, hts⟩ := List.exists_cons_of_ne_nil (append_rest_ne_nil (dashPairs n) rest hne)
    rw [hcons, hts]
    have hstep : __analog_literal (.top2 w h) (.dash :: .dash :: t :: ts)
        = __analog_literal (.top2 (w + 1) h) (t :: ts) := rfl
    rw [hstep, ← hts, ih (w + 1) h hne]
    have harith : w + 1 + n = w + (n + 1) := by omega
    rw [harith]

theorem mid2_pipe_rep (n : Nat) : ∀ (w h : Nat) {rest : List Token}, rest ≠ [] →
    __analog_literal (.mid2 w h) (pipePairs n ++ rest)
      = __analog_literal (.mid2 w (n + h)) rest := by
  induction n with
  | zero => intro w h rest _; simp [pipePairs, rep]
  | succ n ih =>
    intro w h rest hne
    have hcons : pipePairs (n + 1) ++ rest = .pipe :: .pipe :: (pipePairs n ++ rest) := by
      simp [pipePairs, rep]
    obtain ⟨t, ts, hts⟩ := List.exists_cons_of_ne_nil (append_rest_ne_nil (pipePairs n) rest hne)
    rw [hcons, hts]
    have hstep : __analog_literal (.mid2 w h) (.pipe :: .pipe :: t :: ts)
        = __analog_literal (.mid2 w (1 + h)) (t :: ts) := rfl
    rw [hstep, ← hts, ih w (1 + h) hne]
    have harith : n + (1 + h) = n + 1 + h := by omega
    rw [harith]

theorem bot2_dash_rep (n : Nat) : ∀ (w h bw : Nat) {rest : List Token}, rest ≠ [] →
    __analog_literal (.bot2 w h bw) (dashPairs n ++ rest)
      = __analog_literal (.bot2 w h (bw + n)) rest := by
  induction n with
  | zero => intro w h bw rest _; simp [dashPairs, rep]
  | succ n ih =>
    intro w h bw rest hne
    have hcons : dashPairs (n + 1) ++ rest = .dash :: .dash :: (dashPairs n ++ rest) := by
      simp [dashPairs, rep]
    obtain ⟨t, ts, hts⟩ := List.exists_cons_of_ne_nil (append_rest_ne_nil (dashPairs n) rest hne)
    rw [hcons, hts]
    have hstep : __analog_literal (.bot2 w h bw) (.dash :: .dash :: t :: ts)
        = __analog_literal (.bot2 w h (bw + 1)) (t :: ts) := rfl
    rw [hstep, ← hts, ih w h (bw + 1) hne]
    have harith : bw + 1 + n = bw + (n + 1) := by omega
    rw [harith]

theorem top3lh_ssp_rep (n : Nat) :
    ∀ (w h l mw bw bh bl : Nat) {rest : List Token}, rest ≠ [] →
    __analog_literal (.top3lh w h l mw bw bh bl) (rep sspSeg n ++ rest)
      = __analog_literal (.top3lh w (n + h) (n + l) mw bw bh bl) rest := by
  induction n with
  | zero => intro w h l mw bw bh bl rest _; simp [rep]
  | succ n ih =>
    intro w h l mw bw bh bl rest hne
    obtain ⟨t, ts, hts⟩ :=
      List.exists_cons_of_ne_nil (append_rest_ne_nil (rep sspSeg n) rest hne)
    rw [ssp_succ, hts]
    have hstep : __analog_literal (.top3lh w h l mw bw bh bl)
          (.slash :: .slash :: .pipe :: t :: ts)
        = __analog_literal (.top3lh w (1 + h) (1 + l) mw bw bh bl) (t :: ts) := rfl
    rw [hstep, ← hts, ih w (1 + h) (1 + l) mw bw bh bl hne]
    have h1 : n + (1 + h) = n + 1 + h := by omega
    have h2 : n + (1 + l) = n + 1 + l := by omega
    rw [h1, h2]

theorem top3lbl_sss_rep (n : Nat) :
    ∀ (w h l mw bw bh bl : Nat) {rest : List Token}, rest ≠ [] →
    __analog_literal (.top3lbl w h l mw bw bh bl) (rep sssSeg n ++ rest)
      = __analog_literal (.top3lbl w h (n + l) mw bw bh (n + bl)) rest := by
  induction n with
  | zero => intro w h l mw bw bh bl rest _; simp [rep]
  | succ n ih =>
    intro w h l mw bw bh bl rest hne
    obtain ⟨t, ts, hts⟩ :=
      List.exists_cons_of_ne_nil (append_rest_ne_nil (rep sssSeg n) rest hne)
    rw [sss_succ, hts]
    have hstep : __analog_literal (.top3lbl w h l mw bw bh bl)
          (.slash :: .slash :: .slash :: t :: ts)
        = __analog_literal (.top3lbl w h (1 + l) mw bw bh (1 + bl)) (t :: ts) := rfl
    rw [hstep, ← hts, ih w h (1 + l) mw bw bh (1 + bl) hne]
    have h1 : n + (1 + l) = n + 1 + l := by omega
    have h2 : n + (1 + bl) = n + 1 + bl := by omega
    rw [h1, h2]

theorem mid3w_dash_rep (n : Nat) :
    ∀ (w h l mw bw bh bl : Nat) {rest : List Token}, rest ≠ [] →
    __analog_literal (.mid3w w h l mw bw bh bl) (dashPairs n ++ rest)
      = __analog_literal (.mid3w w h l (n + mw) bw bh bl) rest := by
  induction n with
  | zero => intro w h l mw bw bh bl rest _; simp [dashPairs, rep]
  | succ n ih =>
    intro w h l mw bw bh bl rest hne
    have hcons : dashPairs (n + 1) ++ rest = .dash :: .dash :: (dashPairs n ++ rest) := by
      simp [dashPairs, rep]
    obtain ⟨t, ts, hts⟩ := List.exists_cons_of_ne_nil (append_rest_ne_nil (dashPairs n) rest hne)
    rw [hcons, hts]
    have hstep : __analog_literal (.mid3w w h l mw bw bh bl) (.dash :: .dash :: t :: ts)
        = __analog_literal (.mid3w w h l (1 + mw) bw bh bl) (t :: ts) := rfl
    rw [hstep, ← hts, ih w h l (1 + mw) bw bh bl hne]
    have harith : n + (1 + mw) = n + 1 + mw := by omega
    rw [harith]

theorem bot3h_iis_rep (n : Nat) :
    ∀ (w h l mw bw bh bl : Nat) {rest : List Token}, rest ≠ [] →
    __analog_literal (.bot3h w h l mw bw bh bl) (rep iisSeg n ++ rest)
      = __analog_literal (.bot3h w h l mw bw (n + bh) (n + bl)) rest := by
  induction n with
  | zero => intro w h l mw bw bh bl rest _; simp [rep]
  | succ n ih =>
    intro w h l mw bw bh bl rest hne
    have hcons : rep iisSeg (n + 1) ++ rest = .pipe :: .pipe :: .slash :: (rep iisSeg n ++ rest) := by
      simp [iisSeg, rep]
    obtain ⟨t, ts, hts⟩ :=
      List.exists_cons_of_ne_nil (append_rest_ne_nil (rep iisSeg n) rest hne)
    rw [hcons, hts]
    have hstep : __analog_literal (.bot3h w h l mw bw bh bl)
          (.pipe :: .pipe :: .slash :: t :: ts)
        = __analog_literal (.bot3h w h l mw bw (1 + bh) (1 + bl)) (t :: ts) := rfl
    rw [hstep, ← hts, ih w h l mw bw (1 + bh) (1 + bl) hne]
    have h1 : n + (1 + bh) = n + 1 + bh := by omega
    have h2 : n + (1 + bl) = n + 1 + bl := by omega
    rw [h1, h2]

theorem bot3h_iii_rep (n : Nat) :
    ∀ (w h l mw bw bh bl : Nat) {rest : List Token}, rest ≠ [] →
    __analog_literal (.bot3h w h l mw bw bh bl) (rep iiiSeg n ++ rest)
      = __analog_literal (.bot3h w (n + h) l mw bw (n + bh) bl) rest := by
  induction n with
  | zero => intro w h l mw bw bh bl rest _; simp [rep]
  | succ n ih =>
    intro w h l mw bw bh bl rest hne
    have hcons : rep iiiSeg (n + 1) ++ rest = .pipe :: .pipe :: .pipe :: (rep iiiSeg n ++ rest) := by
      simp [iiiSeg, rep]
    obtain ⟨t, ts, hts⟩ :=
      List.exists_cons_of_ne_nil (append_rest_ne_nil (rep iiiSeg n) rest hne)
    rw [hcons, hts]
    have hstep : __analog_literal (.bot3h w h l mw bw bh bl)
          (.pipe :: .pipe :: .pipe :: t :: ts)
        = __analog_literal (.bot3h w (1 + h) l mw bw (1 + bh) bl) (t :: ts) := rfl
    rw [hstep, ← hts, ih w (1 + h) l mw bw (1 + bh) bl hne]
    have h1 : n + (1 + h) = n + 1 + h := by omega
    have h2 : n + (1 + bh) = n + 1 + bh := by omega
    rw [h1, h2]

theorem bot3_dash_rep (n : Nat) :
    ∀ (w h l mw bw bh bl : Nat) {rest : List Token}, rest ≠ [] →
    __analog_literal (.bot3 w h l mw bw bh bl) (dashPairs n ++ rest)
      = __analog_literal (.bot3 w h l mw (n + bw) bh bl) rest := by
  induction n with
  | zero => intro w h l mw bw bh bl rest _; simp [dashPairs, rep]
  | succ n ih =>
    intro w h l mw bw bh bl rest hne
    have hcons : dashPairs (n + 1) ++ rest = .dash :: .dash :: (dashPairs n ++ rest) := by
      simp [dashPairs, rep]
    obtain ⟨t, ts, hts⟩ := List.exists_cons_of_ne_nil (append_rest_ne_nil (dashPairs n) rest hne)
    rw [hcons, hts]
    have hstep : __analog_literal (.bot3 w h l mw bw bh bl) (.dash :: .dash :: t :: ts)
        = __analog_literal (.bot3 w h l mw (1 + bw) bh bl) (t :: ts) := rfl
    rw [hstep, ← hts, ih w h l mw (1 + bw) bh bl hne]
    have harith : n + (1 + bw) = n + 1 + bw := by omega
    rw [harith]

end Lemmas

section Evaluation

/-- A drawn line of `n` width units recognises to the bare magnitude `n`. -/
theorem line_eval (n : Nat) : analog_literal (lineTokens n) = .ok (.num n) := by
  simp only [lineTokens]
  rw [analog_line_step (append_rest_ne_nil _ _ (List.cons_ne_nil _ _)),
      run1D_rep n (List.cons_ne_nil _ _)]
  rfl

/-- The degenerate 2D opening recognises to the bare magnitude `w`. -/
theorem deg_eval (w : Nat) : analog_literal (degTokens w) = .ok (.num w) := by
  simp only [degTokens]
  rw [analog_plus_step (append_rest_ne_nil _ _ (List.cons_ne_nil _ _)),
      top2_dash_rep w 0 0 (List.cons_ne_nil _ _), Nat.zero_add]
  rfl

/-- A drawn rectangle reaches the `@2D_BOTTOM` terminal rule with exactly
the top and bottom width counts, and the result is decided by the
`w == bottom_w` check. -/
theorem rect_eval (w h bw : Nat) :
    analog_literal (rectTokens w h bw) =
      if w = bw then .ok (.rect { w := w, h := h })
      else .error (.dimensionMismatch .width w bw) := by
  simp only [rectTokens]
  rw [analog_plus_step (append_rest_ne_nil _ _ (List.cons_ne_nil _ _)),
      top2_dash_rep w 0 0 (List.cons_ne_nil _ _), Nat.zero_add,
      top2_plus_step (append_rest_ne_nil _ _ (List.cons_ne_nil _ _)),
      mid2_pipe_rep h w 0 (List.cons_ne_nil _ _), Nat.add_zero,
      mid2_plus_step (append_rest_ne_nil _ _ (List.cons_ne_nil _ _)),
      bot2_dash_rep bw w h 0 (List.cons_ne_nil _ _), Nat.zero_add,
      bot2_done]

/-- Recognition of the `h < l` cuboid drawing, additively parametrised:
`h2 + 1` top-back diagonals and `k` extra depth rows give the cuboid of
height `h2 + 1` and length `h2 + k + 2`. -/
theorem cuboid_evalA (w h2 k : Nat) :
    analog_literal (cuboidTokensA w (h2 + 1) k)
      = .ok (.cuboid { w := w, h := h2 + 1, l := h2 + k + 2 }) := by
  simp only [cuboidTokensA]
  rw [analog_plus_step (append_rest_ne_nil _ _ (List.cons_ne_nil _ _)),
      top2_dash_rep w 0 0 (List.cons_ne_nil _ _),
      show 0 + w = w from Nat.zero_add w,
      top2_plus_step (append_rest_ne_nil _ _ (List.cons_ne_nil _ _)),
      ssp_succ,
      mid2_entry3d (append_rest_ne_nil _ _ (List.cons_ne_nil _ _)),
      top3lh_ssp_rep h2 w 1 1 0 0 0 0 (List.cons_ne_nil _ _),
      top3lh_ssplus_step (append_rest_ne_nil _ _ (List.cons_ne_nil _ _)),
      top3lbl_sss_rep k w (h2 + 1) (1 + (h2 + 1)) 0 0 0 0 (List.cons_ne_nil _ _),
      show k + 0 = k from rfl,
      show k + (1 + (h2 + 1)) = h2 + k + 2 from by omega,
      top3lbl_plus_step (append_rest_ne_nil _ _ (List.cons_ne_nil _ _)),
      mid3w_dash_rep w w (h2 + 1) (h2 + k + 2) 0 0 0 k (List.cons_ne_nil _ _),
      show w + 0 = w from rfl,
      mid3w_ps_step (append_rest_ne_nil _ _ (List.cons_ne_nil _ _)),
      bot3h_iis_rep (h2 + 1) w (h2 + 1) (h2 + k + 2) w 0 0 (1 + k) (List.cons_ne_nil _ _),
      show h2 + 1 + 0 = h2 + 1 from rfl,
      show h2 + 1 + (1 + k) = h2 + k + 2 from by omega,
      bot3h_plus_step (append_rest_ne_nil _ _ (List.cons_ne_nil _ _)),
      bot3_dash_rep w w (h2 + 1) (h2 + k + 2) w 0 (h2 + 1) (h2 + k + 2)
        (List.cons_ne_nil _ _),
      show w + 0 = w from rfl, bot3_done]
  simp

/-- Recognition of the `l ≤ h` cuboid drawing, additively parametrised:
`l2 + 1` top-back diagonals, `m` shared front/side rows and `l2` back-depth
rows give the cuboid of height `l2 + 1 + m` and length `l2 + 1`. -/
theorem cuboid_evalB (w l2 m : Nat) :
    analog_literal (cuboidTokensB w l2 m)
      = .ok (.cuboid { w := w, h := l2 + 1 + m, l := l2 + 1 }) := by
  simp only [cuboidTokensB]
  rw [analog_plus_step (append_rest_ne_nil _ _ (List.cons_ne_nil _ _)),
      top2_dash_rep w 0 0 (List.cons_ne_nil _ _),
      show 0 + w = w from Nat.zero_add w,
      top2_plus_step (append_rest_ne_nil _ _ (List.cons_ne_nil _ _)),
      ssp_succ,
      mid2_entry3d (append_rest_ne_nil _ _ (List.cons_ne_nil _ _)),
      top3lh_ssp_rep l2 w 1 1 0 0 0 0 (List.cons_ne_nil _ _),
      top3lh_plus_step (append_rest_ne_nil _ _ (List.cons_ne_nil _ _)),
      mid3w_dash_rep w w (l2 + 1) (l2 + 1) 0 0 0 0
        (List.cons_ne_nil _ _),
      show w + 0 = w from rfl,
      mid3w_ps_step (append_rest_ne_nil _ _
        (append_rest_ne_nil _ _ (List.cons_ne_nil _ _))),
      show 1 + 0 = 1 from rfl,
      bot3h_iii_rep m w (l2 + 1) (l2 + 1) w 0 0 1
        (append_rest_ne_nil _ _ (List.cons_ne_nil _ _)),
      show m + 0 = m from rfl,
      show m + (l2 + 1) = l2 + 1 + m from by omega,
      bot3h_iis_rep l2 w (l2 + 1 + m) (l2 + 1) w 0 m 1 (List.cons_ne_nil _ _),
      bot3h_iip_step (List.cons_ne_nil _ _),
      show 1 + (l2 + m) = l2 + 1 + m from by omega,
      bot3h_plus_step (append_rest_ne_nil _ _ (List.cons_ne_nil _ _)),
      bot3_dash_rep w w (l2 + 1 + m) (l2 + 1) w 0 (l2 + 1 + m) (l2 + 1)
        (List.cons_ne_nil _ _),
      show w + 0 = w from rfl, bot3_done]
  simp

/-- Recognition of a consistently drawn cuboid for any `h, l ≥ 1`. -/
theorem cuboid_eval (w h l : Nat) (hh : 1 ≤ h) (hl : 1 ≤ l) :
    analog_literal (cuboidTokens w h l) = .ok (.cuboid { w := w, h := h, l := l }) := by
  by_cases hcase : h < l
  · have hA : cuboidTokens w h l = cuboidTokensA w (h - 1 + 1) (l - h - 1) := by
      simp only [cuboidTokens, if_pos hcase, cuboidTokensA]
      rw [show h - 1 + 1 = h from by omega]
    rw [hA, cuboid_evalA w (h - 1) (l - h - 1)]
    have e2 : h - 1 + (l - h - 1) + 2 = l := by omega
    have e1 : h - 1 + 1 = h := by omega
    rw [e2, e1]
  · have hB : cuboidTokens w h l = cuboidTokensB w (l - 1) (h - l) := by
      simp only [cuboidTokens, if_neg hcase, cuboidTokensB]
      rw [show l - 1 + 1 = l from by omega]
    rw [hB, cuboid_evalB w (l - 1) (h - l)]
    have e1 : l - 1 + 1 + (h - l) = h := by omega
    have e2 : l - 1 + 1 = l := by omega
    rw [e1, e2]

/-- The `@3D_BOTTOM` terminal rule accepts exactly when the four cross
checks hold, and then builds the cuboid from the front-top counters. -/
theorem bot3_done_iff (w h l mw bw bh bl : Nat) (r : RecogResult) :
    __analog_literal (.bot3 w h l mw bw bh bl) [.plus] = .ok r ↔
      (w = mw ∧ w = bw ∧ h = bh ∧ l = bl ∧ r = .cuboid { w := w, h := h, l := l }) := by
  rw [bot3_done]
  split_ifs with h1 h2 h3 h4 <;> simp_all [eq_comm]

end Evaluation

section Bounds

set_option maxHeartbeats 4000000 in
/-- A macro-recursion budget strictly larger than the token count is enough
for the state machine: every rule consumes at least one token. -/
theorem fuel_bridge (st : St) (ts : List Token) :
    ∀ fuel, ts.length < fuel → __analog_literal_fuel fuel st ts = __analog_literal st ts := by
  induction st, ts using __analog_literal.induct <;>
    (intro fuel hf
     obtain ⟨f, rfl⟩ : ∃ f, fuel = f + 1 := ⟨fuel - 1, by omega⟩
     first
       | rfl
       | (rename_i ih
          simp only [__analog_literal_fuel, __analog_literal]
          exact ih f (by simp at hf ⊢; omega))
       | (rename_i t x h1 h2 h3 h4 h5 h6 h7 h8 h9 h10 h11 h12 h13 h14 h15 h16 h17 h18 h19 h20
            h21 h22 h23
          clear hf
          cases x <;> rcases t with _ | ⟨a, _ | ⟨b, _ | ⟨c, _ | ⟨d, rest⟩⟩⟩⟩ <;>
            (try cases a) <;> (try cases b) <;> (try cases c) <;>
            first
              | rfl
              | (exfalso; solve_by_elim [rfl])))

/-- A recursion budget strictly larger than the token count is enough for
the 1D rules. -/
theorem run1D_fuel_bridge : ∀ (fuel : Nat) (ts : List Token), ts.length < fuel →
    run1D_fuel fuel ts = run1D ts := by
  intro fuel
  induction fuel with
  | zero => intro ts h; exact absurd h (by omega)
  | succ f ih =>
    intro ts h
    rcases ts with _ | ⟨a, _ | ⟨b, _ | ⟨c, rest⟩⟩⟩ <;> (try cases a) <;> (try cases b) <;>
      first
        | rfl
        | (simp only [run1D_fuel, run1D]
           rw [ih (c :: rest) (by simp at h ⊢; omega)])

/-- A recognition budget of input length plus one suffices end to end. -/
theorem analog_fuel_eq : ∀ ts : List Token,
    analog_literal_fuel (ts.length + 1) ts = analog_literal ts := by
  intro ts
  rcases ts with _ | ⟨a, _ | ⟨b, ts2⟩⟩
  · rfl
  · cases a <;> rfl
  · rcases a <;>
      first
        | rfl
        | (simp only [analog_literal_fuel, analog_literal]
           first
             | rw [run1D_fuel_bridge _ _ (by simp only [List.length_cons]; omega)]
             | exact fuel_bridge _ _ _ (by simp only [List.length_cons]; omega))

end Bounds

section Invariant

set_option linter.unusedTactic false in
/-- `Inv` is preserved by every rule, and the only rule that builds a
cuboid builds it from a 3D state, so every cuboid the machine produces has
positive height and length. -/
theorem run_cuboid_inv (st : St) (ts : List Token) :
    ∀ c : Cuboid, Inv st → __analog_literal st ts = .ok (.cuboid c) → 1 ≤ c.h ∧ 1 ≤ c.l := by
  induction st, ts using __analog_literal.induct <;>
    (intro c hInv hrun
     first
       | (rename_i ih
          simp only [__analog_literal] at hrun
          exact ih c (by simp only [Inv] at hInv ⊢ <;> first | trivial | omega) hrun)
       | (simp [__analog_literal] at hrun; done)
       | (simp [__analog_literal] at hrun
          subst hrun
          simp only [Inv] at hInv
          exact ⟨hInv.1, hInv.2⟩)
       | (simp_all [__analog_literal]; done))

/-- Every cuboid produced from the public entry has positive height and
length. -/
theorem analog_cuboid_inv (ts : List Token) (c : Cuboid)
    (h : analog_literal ts = .ok (.cuboid c)) : 1 ≤ c.h ∧ 1 ≤ c.l := by
  rcases ts with _ | ⟨a, _ | ⟨b, ts2⟩⟩
  · simp [analog_literal] at h
  · cases a <;> simp [analog_literal] at h
  · cases a
    case plus => exact run_cuboid_inv (.top2 0 0) (b :: ts2) c trivial h
    case lineMarker =>
      cases hr : run1D (b :: ts2) <;> simp [analog_literal, hr, Except.map] at h
    all_goals simp [analog_literal] at h

end Invariant

section Claims

/-- C1: for all `w, h, l ≥ 1`, a cuboid token stream drawn with matching
front/back measurements — reaching the terminal state with `mid_w = w`,
`bottom_w = w`, `bottom_h = h`, `bottom_l = l` — is accepted, and the
`DONE` step of the cuboid recogniser checks exactly the four equalities
`w = mid_w`, `w = bottom_w`, `h = bottom_h`, `l = bottom_l`, producing
`Cuboid {w, h, l}` built from the front-top counters. -/
theorem claim1_cuboid_done (w h l : Nat) (_hw : 1 ≤ w) (hh : 1 ≤ h) (hl : 1 ≤ l) :
    analog_literal (cuboidTokens w h l) = .ok (.cuboid { w := w, h := h, l := l }) ∧
    (∀ (mw bw bh bl : Nat) (r : RecogResult),
      __analog_literal (.bot3 w h l mw bw bh bl) [.plus] = .ok r ↔
        (w = mw ∧ w = bw ∧ h = bh ∧ l = bl ∧ r = .cuboid { w := w, h := h, l := l })) :=
  ⟨cuboid_eval w h l hh hl, fun mw bw bh bl r => bot3_done_iff w h l mw bw bh bl r⟩

/-- Witness for C1 at `w = 2`, `h = 1`, `l = 3`. -/
theorem claim1_witness :
    analog_literal (cuboidTokens 2 1 3) = .ok (.cuboid { w := 2, h := 1, l := 3 }) :=
  (claim1_cuboid_done 2 1 3 (by decide) (by decide) (by decide)).1

/-- C2: whenever the top and bottom width counts of a drawn rectangle
differ, recognition fails with a `DimensionMismatch` on the width edge
carrying the expected (top) and actual (bottom) counts, and no value — in
particular no `Rectangle` obtained by averaging, clamping or picking one
of the two counts — is ever produced. -/
theorem claim2_width_mismatch (w h bw : Nat) (hne : w ≠ bw) :
    analog_literal (rectTokens w h bw) = .error (.dimensionMismatch .width w bw) ∧
    ∀ r : RecogResult, analog_literal (rectTokens w h bw) ≠ .ok r := by
  have he := rect_eval w h bw
  rw [if_neg hne] at he
  exact ⟨he, fun r hr => by rw [he] at hr; cases hr⟩

/-- Witness for C2 at top width 4 against bottom width 3. -/
theorem claim2_witness :
    (4 : Nat) ≠ 3 ∧
    analog_literal (rectTokens 4 2 3) = .error (.dimensionMismatch .width 4 3) :=
  ⟨by decide, (claim2_width_mismatch 4 2 3 (by decide)).1⟩

/-- C3: for all `w, h ≥ 1`, the rectangle stream of a top edge of `w`
width units closed by `Plus`, `h` pipe-pair rows, a `Plus` opening the
bottom edge, `w` width units and a final closing `Plus` is accepted and
produces `Rectangle {w, h}`. -/
theorem claim3_rectangle (w h : Nat) (_hw : 1 ≤ w) (_hh : 1 ≤ h) :
    analog_literal (rectTokens w h w) = .ok (.rect { w := w, h := h }) := by
  rw [rect_eval, if_pos rfl]

/-- Witness for C3 at `w = 2`, `h = 3`. -/
theorem claim3_witness :
    (1 : Nat) ≤ 2 ∧ (1 : Nat) ≤ 3 ∧
    analog_literal (rectTokens 2 3 2) = .ok (.rect { w := 2, h := 3 }) :=
  ⟨by decide, by decide, claim3_rectangle 2 3 (by decide) (by decide)⟩

/-- C4: for every `n`, the line stream `LineMarker, n width units,
LineMarker` recognises to the bare magnitude `n`; in particular zero units
yield 0 and three units yield 3. -/
theorem claim4_line :
    (∀ n : Nat, analog_literal (lineTokens n) = .ok (.num n)) ∧
    analog_literal (lineTokens 0) = .ok (.num 0) ∧
    analog_literal (lineTokens 3) = .ok (.num 3) :=
  ⟨line_eval, line_eval 0, line_eval 3⟩

/-- C5: a stream that opens with `Plus`, measures `w` width units and then
ends at the closing `Plus` collapses to the bare magnitude `w` — the same
output the line recogniser gives — and not to any `Rectangle` value. -/
theorem claim5_degenerate (w : Nat) :
    analog_literal (degTokens w) = .ok (.num w) ∧
    analog_literal (degTokens w) = analog_literal (lineTokens w) ∧
    ∀ r : Rectangle, analog_literal (degTokens w) ≠ .ok (.rect r) := by
  refine ⟨deg_eval w, ?_, ?_⟩
  · rw [deg_eval, line_eval]
  · intro r hr
    rw [deg_eval] at hr
    cases hr

/-- C6: the `TOP_DEPTH` phase is entered by a `Slash, Slash, Pipe` opening
sequence after the shared top-width phase; each further
`Slash, Slash, Pipe` triple increments `h` and `l` by exactly one
together, and a `Slash, Slash, Plus` triple instead ends the phase,
incrementing only `l` by one (with `h` unchanged) before advancing. -/
theorem claim6_top_depth (w h0 h l mw bw bh bl : Nat) (t : Token) (ts : List Token) :
    __analog_literal (.mid2 w h0) (.slash :: .slash :: .pipe :: t :: ts)
      = __analog_literal (.top3lh w 1 1 0 0 0 0) (t :: ts) ∧
    __analog_literal (.top3lh w h l mw bw bh bl) (.slash :: .slash :: .pipe :: t :: ts)
      = __analog_literal (.top3lh w (1 + h) (1 + l) mw bw bh bl) (t :: ts) ∧
    __analog_literal (.top3lh w h l mw bw bh bl) (.slash :: .slash :: .plus :: t :: ts)
      = __analog_literal (.top3lbl w h (1 + l) mw bw bh bl) (t :: ts) :=
  ⟨rfl, rfl, rfl⟩

/-- C7: `Rectangle.area` is `w * h`; `Cuboid.volume` is `w * h * l`; the
`top`, `side` and `front` projections are pure field rearrangements with
no recomputation or re-validation. -/
theorem claim7_projections (r : Rectangle) (c : Cuboid) :
    r.area = r.w * r.h ∧ c.volume = c.w * c.h * c.l ∧
    c.top = { w := c.w, h := c.l } ∧
    c.side = { w := c.l, h := c.h } ∧
    c.front = { w := c.w, h := c.h } :=
  ⟨rfl, rfl, rfl, rfl, rfl⟩

/-- C8: recognition of a finite token stream is total and bounded purely
by input length: a recursion budget of length plus one makes the
fuel-indexed machine agree with the total one, both at the state-machine
level and at the public entry. -/
theorem claim8_bounded (ts : List Token) :
    (∀ st, __analog_literal_fuel (ts.length + 1) st ts = __analog_literal st ts) ∧
    analog_literal_fuel (ts.length + 1) ts = analog_literal ts :=
  ⟨fun st => fuel_bridge st ts (ts.length + 1) (by omega), analog_fuel_eq ts⟩

/-- C9: every cuboid produced by recognition has `h ≥ 1` and `l ≥ 1`,
while `w` may be 0 — witnessed by the drawable width-zero cuboid
`Cuboid {0, 1, 1}`. -/
theorem claim9_cuboid_positive :
    (∀ (ts : List Token) (c : Cuboid),
      analog_literal ts = .ok (.cuboid c) → 1 ≤ c.h ∧ 1 ≤ c.l) ∧
    analog_literal wZeroTokens = .ok (.cuboid { w := 0, h := 1, l := 1 }) :=
  ⟨analog_cuboid_inv, rfl⟩

/-- Witness for C9 at the width-zero cuboid stream. -/
theorem claim9_witness :
    analog_literal wZeroTokens = .ok (.cuboid { w := 0, h := 1, l := 1 }) ∧
    (1 ≤ (Cuboid.mk 0 1 1).h ∧ 1 ≤ (Cuboid.mk 0 1 1).l) :=
  ⟨rfl, claim9_cuboid_positive.1 wZeroTokens (Cuboid.mk 0 1 1) rfl⟩

/-- C10: a zero-height rectangle is constructible at the public entry: a
top edge of `w` width units whose closing `Plus` is immediately followed
by the bottom-edge opening `Plus` and a matching bottom edge is accepted
as `Rectangle {w, 0}`. -/
theorem claim10_zero_height (w : Nat) :
    analog_literal (rectTokens w 0 w) = .ok (.rect { w := w, h := 0 }) := by
  rw [rect_eval, if_pos rfl]

end Claims

end AnalogLiterals
